import Mathlib

/-
Verification of the workload-store normalization pipeline
(pkg/api/store/workload/workload_store.go).

The Go document is an untyped nested map; the pipeline only reads and
writes a fixed set of paths, so the embedding uses a typed record per
entity (`Port`, `Container`, `Doc`) holding exactly the fields the
pipeline touches.  Go strings are modelled as lists of characters so
that the string algorithms (Split, ToLower, HasPrefix, Count, Itoa)
can be reasoned about by structural induction.
-/

namespace WorkloadStore

/-- Go strings, modelled as lists of characters. -/
abbrev Str := List Char

/-- `strings.ToLower` (the pipeline only ever feeds it ASCII data). -/
def lower (s : Str) : Str := s.map Char.toLower

/-- `strings.HasPrefix s pre` from the source, argument order (pre, s). -/
def strHasPre (pre s : Str) : Bool := List.isPrefixOf pre s

/-- `strings.Count id ":"` for a single-character separator. -/
def countChar (c : Char) (s : Str) : Nat := s.count c

/-- `strings.Split s (String.singleton c)`: splits at every occurrence of
`c`; the empty string yields `[""]`, and separators at the ends yield
empty fields, exactly as in Go. -/
def splitOnChar (c : Char) : Str → List Str
  | [] => [[]]
  | a :: rest =>
    let r := splitOnChar c rest
    if a = c then [] :: r
    else (a :: r.headD []) :: r.tail

/-- The decimal digit character for `n < 10`. -/
def digitChar (n : Nat) : Char := Char.ofNat (48 + n)

/-- Decimal rendering of a natural number; the fuel argument only bounds
the recursion depth and `natToStr` always supplies enough of it. -/
def natToStrAux : Nat → Nat → Str
  | 0, _ => []
  | fuel + 1, n =>
    if n < 10 then [digitChar n]
    else natToStrAux fuel (n / 10) ++ [digitChar (n % 10)]

/-- Decimal rendering of a natural number (`strconv.Itoa` on `n ≥ 0`). -/
def natToStr (n : Nat) : Str := natToStrAux (n + 1) n

/-- `strconv.Itoa`: decimal rendering of an integer. -/
def intToStr (i : Int) : Str :=
  if i < 0 then '-' :: natToStr i.natAbs else natToStr i.toNat

/-- A container port (`port` map of the source): the fields `setPorts`
reads and writes.  `containerPort` is the value after `convert.ToNumber`
(a parse failure leaves the Go zero value, which the caller supplies
here directly). -/
structure Port where
  name : Str
  containerPort : Int
  protocol : Str
  sourcePort : Str
  kind : Str
  dnsName : Str
deriving DecidableEq

/-- A container: the `ports` slice is the only field `setPorts` uses. -/
structure Container where
  ports : List Port
deriving DecidableEq

/-- The error code of the structured API error raised by `setPorts`
(`httperror.InvalidOption`). -/
inductive ErrorCode where
  | invalidOption
deriving DecidableEq

/-- The API error built by `setPorts` on a duplicated port name: the
message interpolates the offending port's `kind`, `containerPort` and
`protocol`, modelled here as structured fields. -/
structure ApiError where
  code : ErrorCode
  kind : Str
  containerPort : Int
  protocol : Str
deriving DecidableEq

/-- The workload document: the fields touched by `setPorts`,
`setScheduling` and `setStrategy`.  `schedulingNodeId` is the path
`scheduling.node.nodeId`, `nodeId` the top-level `nodeId` field, and
`strategy`/`maxSurge`/`maxUnavailable` live under `deploymentConfig`.
An empty string models an absent string field. -/
structure Doc where
  name : Str
  containers : List Container
  schedulingNodeId : Str
  nodeId : Str
  strategy : Str
  maxSurge : Option Str
  maxUnavailable : Option Str
deriving DecidableEq

/-- The `kind`-to-digit numbering of `setPorts` (`numKind`). -/
def kindNum (kind : Str) : Nat :=
  if kind = ("NodePort").data then 1
  else if kind = ("ClusterIP").data then 2
  else if kind = ("LoadBalancer").data then 3
  else 0

/-- The derived port name of `setPorts` for a port with an empty name:
`fmt.Sprintf("%s%s%s%s", strconv.Itoa(containerPort),
ToLower(protocol), ToLower(sourcePort), ToLower(numKind))`. -/
def derivedPortName (p : Port) : Str :=
  intToStr p.containerPort ++ lower p.protocol ++ lower p.sourcePort ++
    lower (natToStr (kindNum p.kind))

/-- The name a port ends up with in `setPorts`: the derived name when
`port["name"]` is empty, the existing name otherwise. -/
def finalName (p : Port) : Str :=
  if p.name = [] then derivedPortName p else p.name

/-- `generateDNSName` from the source: regenerate when the stored
`dnsName` is empty, equals the workload name up to case
(`strings.EqualFold`), or starts with `workloadName + "-"`. -/
def generateDNSName (workloadName dnsName : Str) : Bool :=
  if dnsName = [] then true
  else if lower dnsName = lower workloadName ∨
      strHasPre (workloadName ++ ['-']) dnsName = true then true
  else false

/-- The `dnsName` a port ends up with in `setPorts`: regenerated from
the workload name (and, unless the kind is exactly `"ClusterIP"`, the
lower-cased kind) when `generateDNSName` says so, kept otherwise. -/
def newDNSName (workloadName : Str) (p : Port) : Str :=
  if generateDNSName workloadName p.dnsName = true then
    if p.kind = ("ClusterIP").data then lower workloadName
    else lower workloadName ++ '-' :: lower p.kind
  else p.dnsName

/-- The inner loop of `setPorts` over one container's `ports` slice.
`used` is the `usedNames` set accumulated so far.  The Go loop mutates
each port map in place (`convert.EncodeToMap` returns the same map for
map input), so the first component is the container's port list as it
stands when the loop finishes or aborts: on a duplicate name the
colliding port and the remaining ports are returned untouched and the
error is built from the colliding port's fields. -/
def processPorts (wl : Str) (used : List Str) : List Port → List Port × Option ApiError
  | [] => ([], none)
  | p :: ps =>
    let pn := finalName p
    if pn ∈ used then
      (p :: ps, some ⟨ErrorCode.invalidOption, p.kind, p.containerPort, p.protocol⟩)
    else
      let r := processPorts wl (pn :: used) ps
      ({ p with name := pn, dnsName := newDNSName wl p } :: r.1, r.2)

/-- `setPorts` from the source: iterates the containers, resetting
`usedNames` for each container, and aborts on the first duplicate,
leaving the remaining containers untouched. -/
def setPorts (wl : Str) : List Container → List Container × Option ApiError
  | [] => ([], none)
  | c :: cs =>
    match processPorts wl [] c.ports with
    | (ps, some e) => ({ ports := ps } :: cs, some e)
    | (ps, none) =>
      let r := setPorts wl cs
      ({ ports := ps } :: r.1, r.2)

/-- `getNodeName` from the source: the node-lookup collaborator
(`access.ByID`) modelled as a function argument; on a lookup error the
node name stays the Go zero value, the empty string. -/
def getNodeName (lookup : Str → Except Unit Str) (nodeID : Str) : Str :=
  match lookup nodeID with
  | Except.ok n => n
  | Except.error _ => []

/-- `setScheduling` from the source: when `scheduling.node.nodeId` is
non-empty it is unconditionally overwritten with the looked-up node
name, otherwise the top-level `nodeId` is cleared.  The
state-annotation bookkeeping (`getState`/`setState`/`getKey`, helpers
defined outside this file's source) only touches the annotation field
and is not modelled: no claim concerns it. -/
def setScheduling (lookup : Str → Except Unit Str) (d : Doc) : Doc :=
  if d.schedulingNodeId ≠ [] then
    { d with schedulingNodeId := getNodeName lookup d.schedulingNodeId }
  else
    { d with nodeId := [] }

/-- `setStrategy` from the source: a `Recreate` strategy drops
`maxSurge` and `maxUnavailable`. -/
def setStrategy (d : Doc) : Doc :=
  if d.strategy = ("Recreate").data then
    { d with maxSurge := none, maxUnavailable := none }
  else d

/-- The outcome of `Create`/`Update`: `stored d` models delegating to
the underlying `s.Store.Create` / `s.Store.Update` with document `d`;
`failed e` models returning `(nil, err)` without invoking storage. -/
inductive CreateResult where
  | stored (d : Doc)
  | failed (e : ApiError)
deriving DecidableEq

/-- The shared tail of `Create` and `Update`: `setPorts` (aborting on
its error), then `setScheduling`, then `setStrategy`, then the
underlying storage call. -/
def pipelineRun (lookup : Str → Except Unit Str) (wl : Str) (d : Doc) : CreateResult :=
  match setPorts wl d.containers with
  | (_, some e) => CreateResult.failed e
  | (cs, none) =>
    CreateResult.stored (setStrategy (setScheduling lookup { d with containers := cs }))

/-- `CustomizeStore.Create`: runs `setPorts` with the document's own
`name`, then the rest of the pipeline.  The earlier passes
(`setSelector`, `setWorkloadSpecificDefaults`, `setSecrets`) never
fail and touch none of the modelled fields, so they are omitted. -/
def create (lookup : Str → Except Unit Str) (d : Doc) : CreateResult :=
  pipelineRun lookup d.name d

/-- `CustomizeStore.Update`: takes `strings.Split(id, ":")[1]` as the
workload name.  `none` models the runtime panic (index out of range)
when the split has fewer than two segments. -/
def update (lookup : Str → Except Unit Str) (id : Str) (d : Doc) : Option CreateResult :=
  ((splitOnChar ':' id)[1]?).map (fun wl => pipelineRun lookup wl d)

/-- Modelled from the spec: `splitTypeAndID` is defined outside this
file's source (in the aggregate store).  Per the spec's
`CompositeIdentifier` (`<type>:<shortId>`, or more segments, where the
orchestrator strips all but the trailing short identifier, reducing
`"deployment:web:extra"` to `"web"`), it returns the leading type
segment and the short identifier following it. -/
def splitTypeAndID (id : Str) : Str × Str :=
  ((splitOnChar ':' id).headD [], ((splitOnChar ':' id)[1]?).getD [])

/-- `CustomizeStore.ByID`: returns the identifier actually handed to
the underlying `s.Store.ByID`. -/
def byID (id : Str) : Str :=
  if 1 < countChar ':' id then (splitTypeAndID id).2 else id

/-- The `usedNames` set as it stands after cleanly processing `ps`
starting from `used` (each step pushes the port's final name). -/
def usedAfter (used : List Str) (ps : List Port) : List Str :=
  ps.foldl (fun u p => finalName p :: u) used

/-- The structured-error predicate of claim C1: an `InvalidOption`
error whose `kind`, `containerPort` and `protocol` are those of some
port of the document. -/
def mentionsDupPort (d : Doc) (e : ApiError) : Prop :=
  e.code = ErrorCode.invalidOption ∧
  ∃ c, c ∈ d.containers ∧ ∃ p, p ∈ c.ports ∧
    e.kind = p.kind ∧ e.containerPort = p.containerPort ∧ e.protocol = p.protocol

/-- A constantly failing node-lookup collaborator, for concrete instances. -/
def lookupFail : Str → Except Unit Str := fun _ => Except.error ()

/-- A concrete document with a pinned node, for concrete instances. -/
def pinnedDoc : Doc := ⟨"w".data, [], "node1".data, [], [], none, none⟩

/-- A port with a user-set `dnsName` unrelated to the workload name. -/
def customPort : Port := ⟨"x".data, 1, "TCP".data, [], "NodePort".data, "custom".data⟩

/-- A port whose `dnsName` equals the workload name `"web"`. -/
def stalePort : Port := ⟨"y".data, 2, "TCP".data, [], "NodePort".data, "web".data⟩

/-- A `ClusterIP` port with an empty `dnsName`. -/
def emptyDNSClusterPort : Port := ⟨"x".data, 1, "TCP".data, [], "ClusterIP".data, []⟩

/-- A `NodePort` port with an empty `dnsName`. -/
def emptyDNSNodePort : Port := ⟨"x".data, 1, "TCP".data, [], "NodePort".data, []⟩

/-- A port meeting claim C6's stated assumptions whose derived name is
nevertheless longer than 15 characters. -/
def overlongPort : Port := ⟨[], -1, "TCP".data, "aaaaaaaaaaaaaaaa".data, "NodePort".data, []⟩

/-- A port with a realistic numeric `sourcePort`. -/
def niceSrcPort : Port := ⟨[], 8080, "TCP".data, "80".data, "NodePort".data, []⟩

/-- A port with an empty name, whose derived name is `"8080tcp0"`. -/
def dupPort : Port := ⟨[], 8080, "TCP".data, [], [], []⟩

/-- A document with one container holding two ports that both derive
the name `"8080tcp0"`. -/
def dupDoc : Doc := ⟨"web".data, [⟨[dupPort, dupPort]⟩], [], [], [], none, none⟩

/-- A port with the user-set name `"x"` (and a custom `dnsName`, so the
namer leaves it entirely unchanged). -/
def namedPort : Port := ⟨"x".data, 1, "TCP".data, [], [], "zzz".data⟩

/-- Two containers, each holding a port named `"x"`. -/
def twoContainerDoc : Doc :=
  ⟨"web".data, [⟨[namedPort]⟩, ⟨[namedPort]⟩], [], [], [], none, none⟩

/-- A port with an empty name, renamed by the namer to `"80tcp0"`. -/
def mutatedPort : Port := ⟨[], 80, "TCP".data, [], [], []⟩

/-- A port whose final name `"x"` collides with `namedPort`'s. -/
def collidingPort : Port := ⟨"x".data, 2, "UDP".data, [], [], "zzz".data⟩

end WorkloadStore

namespace WorkloadStore

theorem splitOnChar_ne_nil (c : Char) (s : Str) : splitOnChar c s ≠ [] := by
  cases s with
  | nil => simp [splitOnChar]
  | cons a rest => simp only [splitOnChar]; split <;> simp

theorem splitOnChar_not_mem {c : Char} {s : Str} (h : c ∉ s) : splitOnChar c s = [s] := by
  induction s with
  | nil => rfl
  | cons a rest ih =>
    have hac : ¬ a = c := by rintro rfl; exact h (List.mem_cons_self a rest)
    have hrest : c ∉ rest := fun hm => h (List.mem_cons_of_mem a hm)
    simp [splitOnChar, hac, ih hrest]

theorem two_le_splitOnChar_length {c : Char} {s : Str} (h : c ∈ s) :
    2 ≤ (splitOnChar c s).length := by
  induction s with
  | nil => cases h
  | cons a rest ih =>
    by_cases hac : a = c
    · have hpos := List.length_pos.mpr (splitOnChar_ne_nil c rest)
      simp [splitOnChar, hac]
      omega
    · have hrest : c ∈ rest := by
        rcases List.mem_cons.mp h with h1 | h1
        · exact absurd h1.symm hac
        · exact h1
      have h2 := ih hrest
      have h3 : (splitOnChar c rest).tail.length = (splitOnChar c rest).length - 1 :=
        List.length_tail _
      simp [splitOnChar, hac]
      omega

theorem splitOnChar_append_cons (c : Char) {t : Str} (s : Str) (h : c ∉ t) :
    splitOnChar c (t ++ c :: s) = t :: splitOnChar c s := by
  induction t with
  | nil => simp [splitOnChar]
  | cons a t ih =>
    have hac : ¬ a = c := by rintro rfl; exact h (List.mem_cons_self a t)
    have ht : c ∉ t := fun hm => h (List.mem_cons_of_mem a hm)
    simp [splitOnChar, hac, ih ht]

theorem natToStrAux_length (fuel : Nat) :
    ∀ n k : Nat, 0 < k → n < 10 ^ k → (natToStrAux fuel n).length ≤ k := by
  induction fuel with
  | zero => intro n k _ _; simp [natToStrAux]
  | succ fuel ih =>
    intro n k hk hn
    by_cases h : n < 10
    · simpa [natToStrAux, h] using hk
    · rcases k with _ | k
      · omega
      rcases k with _ | k
      · exact absurd (by simpa using hn) h
      · have hdiv : n / 10 < 10 ^ (k + 1) := by
          have h10 : (0:Nat) < 10 := by norm_num
          refine (Nat.div_lt_iff_lt_mul h10).mpr ?_
          calc n < 10 ^ (k + 1 + 1) := hn
            _ = 10 ^ (k + 1) * 10 := by rw [pow_succ]
        have hrec := ih (n / 10) (k + 1) (Nat.succ_pos _) hdiv
        simp [natToStrAux, h, List.length_append]
        omega

theorem natToStr_length (k n : Nat) (hk : 0 < k) (hn : n < 10 ^ k) :
    (natToStr n).length ≤ k := natToStrAux_length (n + 1) n k hk hn

theorem mem_of_idx {α : Type} {l : List α} {n : Nat} {a : α} (h : l[n]? = some a) :
    a ∈ l := by
  induction l generalizing n with
  | nil => simp at h
  | cons x xs ih =>
    cases n with
    | zero => simp at h; subst h; exact List.mem_cons_self x xs
    | succ n => exact List.mem_cons_of_mem x (ih (by simpa using h))

/-- Claim C9: `Update` takes the second colon-delimited segment of the
identifier with no bounds check, so for an identifier containing no
colon the index is out of range and the call cannot complete normally
(modelled as `none`), while any identifier containing a colon reaches
the rest of the pipeline. -/
theorem update_requires_colon (lookup : Str → Except Unit Str) (id : Str) (d : Doc) :
    (¬ ':' ∈ id → update lookup id d = none) ∧
    (':' ∈ id → ∃ r, update lookup id d = some r) := by
  constructor
  · intro h
    simp [update, splitOnChar_not_mem h]
  · intro h
    have h2 := two_le_splitOnChar_length h
    rcases hs : splitOnChar ':' id with _ | ⟨a, _ | ⟨b, t⟩⟩
    · exact absurd hs (splitOnChar_ne_nil ':' id)
    · rw [hs] at h2; simp at h2
    · exact ⟨pipelineRun lookup b d, by simp [update, hs]⟩

/-- Claim C9 witness: the identifier `"abc"` has no colon and `Update`
panics; the identifier `"a:b"` has one and `Update` completes. -/
theorem update_requires_colon_witness :
    update lookupFail "abc".data pinnedDoc = none ∧
    (update lookupFail "a:b".data pinnedDoc).isSome = true := by
  constructor
  · exact (update_requires_colon lookupFail "abc".data pinnedDoc).1 (by decide)
  · obtain ⟨r, hr⟩ := (update_requires_colon lookupFail "a:b".data pinnedDoc).2 (by decide)
    simp [hr]

/-- Claim C8: on an identifier with more than one colon, `ByID`
delegates to the underlying storage read with the trailing short
identifier (the segment after the leading type segment); with one
colon or none the identifier is passed unchanged. -/
theorem byID_strips :
    (∀ t s rest : Str, ':' ∉ t → ':' ∉ s →
      byID (t ++ ':' :: (s ++ ':' :: rest)) = s) ∧
    (∀ id : Str, countChar ':' id ≤ 1 → byID id = id) := by
  constructor
  · intro t s rest ht hs
    have h1 : List.count ':' t = 0 := List.count_eq_zero.mpr ht
    have hcount : 1 < countChar ':' (t ++ ':' :: (s ++ ':' :: rest)) := by
      simp [countChar, List.count_append, List.count_cons_self, h1]
    have hsplit : splitOnChar ':' (t ++ ':' :: (s ++ ':' :: rest)) =
        t :: s :: splitOnChar ':' rest := by
      rw [splitOnChar_append_cons ':' _ ht, splitOnChar_append_cons ':' _ hs]
    rw [byID, if_pos hcount]
    simp [splitTypeAndID, hsplit]
  · intro id h
    rw [byID, if_neg (by omega)]

/-- Claim C8 witness: `ByID` reads `"deployment:web:extra"` using only
`"web"`, and passes `"deployment:web"` through unchanged. -/
theorem byID_strips_witness :
    byID "deployment:web:extra".data = "web".data ∧
    byID "deployment:web".data = "deployment:web".data := by
  constructor
  · have e : "deployment:web:extra".data =
        "deployment".data ++ ':' :: ("web".data ++ ':' :: "extra".data) := by decide
    rw [e]
    exact byID_strips.1 "deployment".data "web".data "extra".data (by decide) (by decide)
  · exact byID_strips.2 "deployment:web".data (by decide)

theorem setStrategy_schedulingNodeId (d : Doc) :
    (setStrategy d).schedulingNodeId = d.schedulingNodeId := by
  unfold setStrategy
  split <;> rfl

/-- Claim C7 (amended): when the caller supplies a non-empty
`scheduling.node.nodeId` and the node lookup fails, the lookup result
is treated as the empty name and `scheduling.node.nodeId` is rewritten
to that empty name: every document a `Create` (or `Update`, which runs
the same pass) hands to storage carries an empty
`scheduling.node.nodeId`, not the original caller-supplied value. -/
theorem node_lookup_error_clears_nodeId (lookup : Str → Except Unit Str) (d : Doc)
    (h1 : d.schedulingNodeId ≠ [])
    (h2 : lookup d.schedulingNodeId = Except.error ()) :
    getNodeName lookup d.schedulingNodeId = [] ∧
    (setScheduling lookup d).schedulingNodeId = [] ∧
    (∀ d', create lookup d = CreateResult.stored d' → d'.schedulingNodeId = []) := by
  have hg : getNodeName lookup d.schedulingNodeId = [] := by
    simp [getNodeName, h2]
  have hsched : (setScheduling lookup d).schedulingNodeId = [] := by
    simp [setScheduling, h1, hg]
  refine ⟨hg, hsched, ?_⟩
  intro d' h
  unfold create pipelineRun at h
  rcases hsp : setPorts d.name d.containers with ⟨cs, eo⟩
  rw [hsp] at h
  cases eo with
  | some e => simp at h
  | none =>
    simp only [CreateResult.stored.injEq] at h
    rw [← h, setStrategy_schedulingNodeId]
    have h1b : ({ d with containers := cs } : Doc).schedulingNodeId ≠ [] := h1
    simp only [setScheduling, if_pos h1b]
    exact hg

/-- Claim C7 witness: a pinned document with a failing lookup ends with
an empty `scheduling.node.nodeId`. -/
theorem node_lookup_error_clears_nodeId_witness :
    (setScheduling lookupFail pinnedDoc).schedulingNodeId = [] :=
  (node_lookup_error_clears_nodeId lookupFail pinnedDoc (by decide) rfl).2.1

/-- Claim C7 counterexample: with caller-supplied
`scheduling.node.nodeId = "node1"` and a failing node lookup, `Create`
hands the storage layer a document whose `scheduling.node.nodeId` is
the empty string — the original caller-supplied value is not kept. -/
theorem node_lookup_error_rewrites :
    pinnedDoc.schedulingNodeId = "node1".data ∧
    lookupFail pinnedDoc.schedulingNodeId = Except.error () ∧
    create lookupFail pinnedDoc =
      CreateResult.stored { pinnedDoc with schedulingNodeId := [] } :=
  ⟨rfl, rfl, by decide⟩

theorem kindDigit (k : Str) :
    lower (natToStr (kindNum k)) =
      (if k = ("NodePort").data then ['1']
       else if k = ("ClusterIP").data then ['2']
       else if k = ("LoadBalancer").data then ['3']
       else ['0']) := by
  unfold kindNum
  split_ifs <;> decide

/-- Claim C2: a port with an empty name gets the concatenation, in
this order and without separators, of the decimal rendering of
`containerPort`, the lower-cased `protocol`, the lower-cased
`sourcePort`, and the single digit derived from `kind`
(NodePort 1, ClusterIP 2, LoadBalancer 3, anything else 0); a port
with a non-empty name keeps it unchanged. -/
theorem derived_name_formula (wl : Str) (p : Port) :
    (processPorts wl [] [p]).1.map Port.name =
      [ if p.name = [] then
          intToStr p.containerPort ++ lower p.protocol ++ lower p.sourcePort ++
            (if p.kind = ("NodePort").data then ['1']
             else if p.kind = ("ClusterIP").data then ['2']
             else if p.kind = ("LoadBalancer").data then ['3']
             else ['0'])
        else p.name ] := by
  have h1 : (processPorts wl [] [p]).1.map Port.name = [finalName p] := by
    simp [processPorts]
  rw [h1]
  simp only [finalName, derivedPortName, kindDigit]

theorem generateDNSName_eq (wl dns : Str) :
    generateDNSName wl dns = true ↔
      (dns = [] ∨ lower dns = lower wl ∨ strHasPre (wl ++ ['-']) dns = true) := by
  unfold generateDNSName
  split_ifs <;> simp_all

/-- Claim C3 (amended): a port's `dnsName` is recomputed exactly when
the existing `dnsName` is empty, OR when it equals the workload
identifier compared case-insensitively, OR when it begins with the
prefix `"<workloadIdentifier>-"`; in every other case the existing
`dnsName` is left unchanged.  (The source regenerates names that look
workload-derived and keeps custom ones; the claim states the inverse.) -/
theorem dns_regeneration_condition (wl : Str) (p : Port) :
    (processPorts wl [] [p]).1.map Port.dnsName =
      [ if p.dnsName = [] ∨ lower p.dnsName = lower wl ∨
            strHasPre (wl ++ ['-']) p.dnsName = true then
          (if p.kind = ("ClusterIP").data then lower wl
           else lower wl ++ '-' :: lower p.kind)
        else p.dnsName ] := by
  have h1 : (processPorts wl [] [p]).1.map Port.dnsName = [newDNSName wl p] := by
    simp [processPorts]
  rw [h1]
  simp only [newDNSName]
  by_cases hg : generateDNSName wl p.dnsName = true
  · rw [if_pos hg, if_pos ((generateDNSName_eq wl p.dnsName).mp hg)]
  · rw [if_neg hg, if_neg (fun hc => hg ((generateDNSName_eq wl p.dnsName).mpr hc))]

/-- Claim C3 counterexample: with workload `"web"`, the port `dnsName`
`"custom"` is non-empty, differs from `"web"` case-insensitively, and
does not start with `"web-"`, so the claim says it is recomputed — but
the code leaves it unchanged; in the same call the `dnsName` `"web"`
equals the workload identifier, so the claim says it is kept — but
the code regenerates it to `"web-nodeport"`. -/
theorem dns_regeneration_condition_counterexample :
    lower "custom".data ≠ lower "web".data ∧
    strHasPre ("web".data ++ ['-']) "custom".data = false ∧
    ("custom".data : Str) ≠ [] ∧
    (processPorts "web".data [] [customPort, stalePort]).1.map Port.dnsName =
      ["custom".data, "web-nodeport".data] :=
  ⟨by decide, by decide, by decide, by decide⟩

/-- Claim C4: whenever `dnsName` regeneration applies to a port, a
`"ClusterIP"` port gets exactly the lower-cased workload identifier,
and any other kind gets the lower-cased workload identifier, a hyphen,
and the lower-cased kind. -/
theorem dns_regeneration_value (wl : Str) (p : Port)
    (h : generateDNSName wl p.dnsName = true) :
    (processPorts wl [] [p]).1.map Port.dnsName =
      [ if p.kind = ("ClusterIP").data then lower wl
        else lower wl ++ '-' :: lower p.kind ] := by
  have h1 : (processPorts wl [] [p]).1.map Port.dnsName = [newDNSName wl p] := by
    simp [processPorts]
  rw [h1]
  simp only [newDNSName]
  rw [if_pos h]

/-- Claim C4 witness: with workload `"web"`, an empty `dnsName` becomes
`"web"` for a `ClusterIP` port and `"web-nodeport"` for a `NodePort`
port. -/
theorem dns_regeneration_value_witness :
    (processPorts "web".data [] [emptyDNSClusterPort]).1.map Port.dnsName = ["web".data] ∧
    (processPorts "web".data [] [emptyDNSNodePort]).1.map Port.dnsName = ["web-nodeport".data] := by
  constructor
  · rw [dns_regeneration_value "web".data emptyDNSClusterPort (by decide)]; decide
  · rw [dns_regeneration_value "web".data emptyDNSNodePort (by decide)]; decide

/-- Claim C6 counterexample: this port satisfies everything the claim
assumes — empty name, `containerPort < 65536`, a known protocol, a
known kind — yet its generated name has more than 15 characters,
because the claim constrains neither the sign of `containerPort` nor
the length of the arbitrary `sourcePort` string. -/
theorem generated_name_length_counterexample :
    overlongPort.name = [] ∧
    overlongPort.containerPort < 65536 ∧
    lower overlongPort.protocol = "tcp".data ∧
    overlongPort.kind = "NodePort".data ∧
    15 < (finalName overlongPort).length :=
  ⟨rfl, by decide, by decide, rfl, by decide⟩

/-- Claim C6 (amended): for every port with an empty name whose
`containerPort` is non-negative and strictly below 65536, whose
protocol is a known protocol string (`TCP`/`UDP`/`SCTP` in any case),
whose kind is a known kind (one of the three service kinds or unset),
and whose `sourcePort` is empty or the decimal rendering of a port
number below 65536, the generated port name has at most 15
characters. -/
theorem generated_name_length (p : Port)
    (hname : p.name = [])
    (h0 : 0 ≤ p.containerPort) (h1 : p.containerPort < 65536)
    (hp : lower p.protocol = "tcp".data ∨ lower p.protocol = "udp".data ∨
      lower p.protocol = "sctp".data)
    (hk : p.kind = ("NodePort").data ∨ p.kind = ("ClusterIP").data ∨
      p.kind = ("LoadBalancer").data ∨ p.kind = [])
    (hs : p.sourcePort = [] ∨ ∃ m : Nat, m < 65536 ∧ p.sourcePort = natToStr m) :
    (finalName p).length ≤ 15 := by
  have e5 : (10:Nat) ^ 5 = 100000 := by norm_num
  have hcp : (intToStr p.containerPort).length ≤ 5 := by
    rw [intToStr, if_neg (by omega)]
    refine natToStr_length 5 _ (by norm_num) ?_
    rw [e5]; omega
  have hpr : (lower p.protocol).length ≤ 4 := by
    rcases hp with h | h | h <;> rw [h] <;> decide
  have hsp : (lower p.sourcePort).length ≤ 5 := by
    rcases hs with h | ⟨m, hm, h⟩
    · rw [h]; decide
    · rw [h, lower, List.length_map]
      refine natToStr_length 5 m (by norm_num) ?_
      rw [e5]; omega
  have hkd : (lower (natToStr (kindNum p.kind))).length = 1 := by
    rcases hk with h | h | h | h <;> rw [h] <;> decide
  unfold finalName
  rw [if_pos hname]
  unfold derivedPortName
  simp only [List.length_append]
  omega

/-- Claim C6 witness: the derived name of a port with
`containerPort = 8080`, protocol `TCP`, `sourcePort = "80"` and kind
`NodePort` fits in 15 characters. -/
theorem generated_name_length_witness : (finalName niceSrcPort).length ≤ 15 :=
  generated_name_length niceSrcPort rfl (by decide) (by decide)
    (Or.inl (by decide)) (Or.inl rfl) (Or.inr ⟨80, by decide, by decide⟩)

theorem processPorts_nil (wl : Str) (used : List Str) :
    processPorts wl used [] = ([], none) := rfl

theorem processPorts_cons_mem (wl : Str) (used : List Str) (p : Port) (ps : List Port)
    (h : finalName p ∈ used) :
    processPorts wl used (p :: ps) =
      (p :: ps, some ⟨ErrorCode.invalidOption, p.kind, p.containerPort, p.protocol⟩) := by
  simp [processPorts, h]

theorem processPorts_cons_not_mem (wl : Str) (used : List Str) (p : Port) (ps : List Port)
    (h : ¬ finalName p ∈ used) :
    processPorts wl used (p :: ps) =
      ({ p with name := finalName p, dnsName := newDNSName wl p } ::
         (processPorts wl (finalName p :: used) ps).1,
       (processPorts wl (finalName p :: used) ps).2) := by
  simp [processPorts, h]

theorem processPorts_err_of_mem_used (wl : Str) :
    ∀ (ps : List Port) (used : List Str), (∃ p ∈ ps, finalName p ∈ used) →
      ∃ e, (processPorts wl used ps).2 = some e := by
  intro ps
  induction ps with
  | nil =>
    intro used h
    rcases h with ⟨p, hp, _⟩
    exact absurd hp (List.not_mem_nil p)
  | cons q ps ih =>
    intro used h
    by_cases hq : finalName q ∈ used
    · exact ⟨⟨ErrorCode.invalidOption, q.kind, q.containerPort, q.protocol⟩,
        by rw [processPorts_cons_mem wl used q ps hq]⟩
    · rcases h with ⟨p, hp, hmem⟩
      rcases List.mem_cons.mp hp with rfl | hp2
      · exact absurd hmem hq
      · obtain ⟨e, he⟩ := ih (finalName q :: used) ⟨p, hp2, List.mem_cons_of_mem _ hmem⟩
        refine ⟨e, ?_⟩
        rw [processPorts_cons_not_mem wl used q ps hq]
        exact he

theorem processPorts_err_of_dup (wl : Str) :
    ∀ (ps : List Port) (used : List Str) (i j : Nat) (pa pb : Port),
      i < j → ps[i]? = some pa → ps[j]? = some pb → finalName pa = finalName pb →
      ∃ e, (processPorts wl used ps).2 = some e := by
  intro ps
  induction ps with
  | nil => intro used i j pa pb _ hi _ _; simp at hi
  | cons q ps ih =>
    intro used i j pa pb hij hi hj hfin
    by_cases hq : finalName q ∈ used
    · exact ⟨⟨ErrorCode.invalidOption, q.kind, q.containerPort, q.protocol⟩,
        by rw [processPorts_cons_mem wl used q ps hq]⟩
    · cases i with
      | zero =>
        have hpa : q = pa := by simpa using hi
        subst hpa
        cases j with
        | zero => omega
        | succ j =>
          have hj2 : ps[j]? = some pb := by simpa using hj
          have hpb : pb ∈ ps := mem_of_idx hj2
          have hm : finalName pb ∈ finalName q :: used := by
            rw [← hfin]; exact List.mem_cons_self _ _
          obtain ⟨e, he⟩ :=
            processPorts_err_of_mem_used wl ps (finalName q :: used) ⟨pb, hpb, hm⟩
          refine ⟨e, ?_⟩
          rw [processPorts_cons_not_mem wl used q ps hq]
          exact he
      | succ i =>
        cases j with
        | zero => omega
        | succ j =>
          have hi2 : ps[i]? = some pa := by simpa using hi
          have hj2 : ps[j]? = some pb := by simpa using hj
          obtain ⟨e, he⟩ := ih (finalName q :: used) i j pa pb (by omega) hi2 hj2 hfin
          refine ⟨e, ?_⟩
          rw [processPorts_cons_not_mem wl used q ps hq]
          exact he

theorem processPorts_err_mentions (wl : Str) :
    ∀ (ps : List Port) (used : List Str) (e : ApiError),
      (processPorts wl used ps).2 = some e →
      e.code = ErrorCode.invalidOption ∧
      ∃ p, p ∈ ps ∧ e.kind = p.kind ∧ e.containerPort = p.containerPort ∧
        e.protocol = p.protocol := by
  intro ps
  induction ps with
  | nil => intro used e h; simp [processPorts_nil] at h
  | cons q ps ih =>
    intro used e h
    by_cases hq : finalName q ∈ used
    · rw [processPorts_cons_mem wl used q ps hq] at h
      have h2 : some (⟨ErrorCode.invalidOption, q.kind, q.containerPort, q.protocol⟩ :
        ApiError) = some e := h
      obtain rfl := Option.some.inj h2
      exact ⟨rfl, q, List.mem_cons_self q ps, rfl, rfl, rfl⟩
    · rw [processPorts_cons_not_mem wl used q ps hq] at h
      have h2 : (processPorts wl (finalName q :: used) ps).2 = some e := h
      obtain ⟨hcode, p, hp, hrest⟩ := ih (finalName q :: used) e h2
      exact ⟨hcode, p, List.mem_cons_of_mem q hp, hrest⟩

theorem setPorts_nil (wl : Str) : setPorts wl [] = ([], none) := rfl

theorem setPorts_cons_err (wl : Str) (c : Container) (cs : List Container)
    (ps : List Port) (e : ApiError) (h : processPorts wl [] c.ports = (ps, some e)) :
    setPorts wl (c :: cs) = ({ ports := ps } :: cs, some e) := by
  simp [setPorts, h]

theorem setPorts_cons_ok (wl : Str) (c : Container) (cs : List Container)
    (ps : List Port) (h : processPorts wl [] c.ports = (ps, none)) :
    setPorts wl (c :: cs) =
      ({ ports := ps } :: (setPorts wl cs).1, (setPorts wl cs).2) := by
  simp [setPorts, h]

theorem setPorts_err_of_container (wl : Str) :
    ∀ (cs : List Container) (c : Container), c ∈ cs →
      (∃ e, (processPorts wl [] c.ports).2 = some e) →
      ∃ e, (setPorts wl cs).2 = some e := by
  intro cs
  induction cs with
  | nil => intro c hc _; exact absurd hc (List.not_mem_nil c)
  | cons c0 cs ih =>
    intro c hc he
    rcases hp : processPorts wl [] c0.ports with ⟨ps, eo⟩
    cases eo with
    | some e => exact ⟨e, by rw [setPorts_cons_err wl c0 cs ps e hp]⟩
    | none =>
      rcases List.mem_cons.mp hc with rfl | hc2
      · obtain ⟨e, he2⟩ := he
        rw [hp] at he2
        simp at he2
      · obtain ⟨e, he2⟩ := ih c hc2 he
        refine ⟨e, ?_⟩
        rw [setPorts_cons_ok wl c0 cs ps hp]
        exact he2

theorem setPorts_err_mentions (wl : Str) :
    ∀ (cs : List Container) (e : ApiError), (setPorts wl cs).2 = some e →
      e.code = ErrorCode.invalidOption ∧
      ∃ c, c ∈ cs ∧ ∃ p, p ∈ c.ports ∧ e.kind = p.kind ∧
        e.containerPort = p.containerPort ∧ e.protocol = p.protocol := by
  intro cs
  induction cs with
  | nil => intro e h; simp [setPorts_nil] at h
  | cons c0 cs ih =>
    intro e h
    rcases hp : processPorts wl [] c0.ports with ⟨ps, eo⟩
    cases eo with
    | some e0 =>
      rw [setPorts_cons_err wl c0 cs ps e0 hp] at h
      have h2 : some e0 = some e := h
      obtain rfl := Option.some.inj h2
      have h3 : (processPorts wl [] c0.ports).2 = some e0 := by rw [hp]
      obtain ⟨hcode, p, hp2, hrest⟩ := processPorts_err_mentions wl c0.ports [] e0 h3
      exact ⟨hcode, c0, List.mem_cons_self c0 cs, p, hp2, hrest⟩
    | none =>
      rw [setPorts_cons_ok wl c0 cs ps hp] at h
      have h2 : (setPorts wl cs).2 = some e := h
      obtain ⟨hcode, c, hc, hrest⟩ := ih e h2
      exact ⟨hcode, c, List.mem_cons_of_mem c0 hc, hrest⟩

theorem pipelineRun_failed (lookup : Str → Except Unit Str) (wl : Str) (d : Doc)
    (e : ApiError) (h : (setPorts wl d.containers).2 = some e) :
    pipelineRun lookup wl d = CreateResult.failed e := by
  rcases hp : setPorts wl d.containers with ⟨cs, eo⟩
  rw [hp] at h
  simp at h
  subst h
  simp [pipelineRun, hp]

/-- Claim C1: if two ports in one container's port list resolve to the
same final name (user-set or derived), `Create` — and `Update`, for
every identifier it survives — returns the `InvalidOption` error
carrying a conflicting port's `kind`, `containerPort` and `protocol`,
and the result is `CreateResult.failed`, i.e. the underlying storage
create/update is never invoked and the document is not persisted. -/
theorem duplicate_port_name_fails (lookup : Str → Except Unit Str) (d : Doc)
    (c : Container) (hc : c ∈ d.containers)
    (hdup : ∃ (i j : Nat) (pa pb : Port), i < j ∧ c.ports[i]? = some pa ∧
      c.ports[j]? = some pb ∧ finalName pa = finalName pb) :
    (∃ e, mentionsDupPort d e ∧ create lookup d = CreateResult.failed e) ∧
    (∀ id wl, (splitOnChar ':' id)[1]? = some wl →
      ∃ e, mentionsDupPort d e ∧ update lookup id d = some (CreateResult.failed e)) := by
  obtain ⟨i, j, pa, pb, hij, hi, hj, hfin⟩ := hdup
  have key : ∀ wl : Str, ∃ e, mentionsDupPort d e ∧
      pipelineRun lookup wl d = CreateResult.failed e := by
    intro wl
    have hproc : ∃ e, (processPorts wl [] c.ports).2 = some e :=
      processPorts_err_of_dup wl c.ports [] i j pa pb hij hi hj hfin
    obtain ⟨e, he⟩ := setPorts_err_of_container wl d.containers c hc hproc
    obtain ⟨hcode, c2, hc2, p, hp, h1, h2, h3⟩ := setPorts_err_mentions wl d.containers e he
    exact ⟨e, ⟨hcode, c2, hc2, p, hp, h1, h2, h3⟩, pipelineRun_failed lookup wl d e he⟩
  constructor
  · exact key d.name
  · intro id wl hid
    obtain ⟨e, hm, hrun⟩ := key wl
    exact ⟨e, hm, by simp [update, hid, hrun]⟩

/-- Claim C1 witness: a container with two ports both deriving
`"8080tcp0"` makes `Create` fail with the duplicate-port error. -/
theorem duplicate_port_name_fails_witness :
    ∃ e, mentionsDupPort dupDoc e ∧ create lookupFail dupDoc = CreateResult.failed e :=
  (duplicate_port_name_fails lookupFail dupDoc ⟨[dupPort, dupPort]⟩ (by decide)
    ⟨0, 1, dupPort, dupPort, by decide, rfl, rfl, rfl⟩).1

theorem setStrategy_containers (d : Doc) : (setStrategy d).containers = d.containers := by
  unfold setStrategy
  split <;> rfl

theorem setScheduling_containers (lookup : Str → Except Unit Str) (d : Doc) :
    (setScheduling lookup d).containers = d.containers := by
  unfold setScheduling
  split <;> rfl

theorem processPorts_ok_nodup (wl : Str) :
    ∀ (ps : List Port) (used : List Str), (processPorts wl used ps).2 = none →
      ((processPorts wl used ps).1.map Port.name).Nodup ∧
      ∀ n ∈ (processPorts wl used ps).1.map Port.name, n ∉ used := by
  intro ps
  induction ps with
  | nil =>
    intro used _
    constructor
    · simp [processPorts_nil]
    · intro n hn
      rw [processPorts_nil] at hn
      simp at hn
  | cons q ps ih =>
    intro used h2
    by_cases hq : finalName q ∈ used
    · rw [processPorts_cons_mem wl used q ps hq] at h2
      simp at h2
    · rw [processPorts_cons_not_mem wl used q ps hq] at h2 ⊢
      have h3 : (processPorts wl (finalName q :: used) ps).2 = none := h2
      obtain ⟨hnd, hnotin⟩ := ih (finalName q :: used) h3
      constructor
      · simp only [List.map_cons]
        refine List.nodup_cons.mpr ⟨?_, hnd⟩
        intro hmem
        exact (hnotin _ hmem) (List.mem_cons_self _ _)
      · intro n hn
        simp only [List.map_cons, List.mem_cons] at hn
        rcases hn with rfl | hn
        · exact hq
        · have h4 := hnotin n hn
          exact fun hin => h4 (List.mem_cons_of_mem _ hin)

theorem setPorts_ok_nodup (wl : Str) :
    ∀ (cs : List Container), (setPorts wl cs).2 = none →
      ∀ c ∈ (setPorts wl cs).1, (c.ports.map Port.name).Nodup := by
  intro cs
  induction cs with
  | nil =>
    intro _ c hc
    rw [setPorts_nil] at hc
    exact absurd hc (List.not_mem_nil c)
  | cons c0 cs ih =>
    intro h c hc
    rcases hp : processPorts wl [] c0.ports with ⟨ps, eo⟩
    cases eo with
    | some e =>
      rw [setPorts_cons_err wl c0 cs ps e hp] at h
      simp at h
    | none =>
      rw [setPorts_cons_ok wl c0 cs ps hp] at h hc
      have h2 : (setPorts wl cs).2 = none := h
      have hc2 : c ∈ ({ ports := ps } : Container) :: (setPorts wl cs).1 := hc
      rcases List.mem_cons.mp hc2 with rfl | hc3
      · have h3 : (processPorts wl [] c0.ports).2 = none := by rw [hp]
        have h4 := (processPorts_ok_nodup wl c0.ports [] h3).1
        rw [hp] at h4
        exact h4
      · exact ih h2 c hc3

theorem pipelineRun_stored_nodup (lookup : Str → Except Unit Str) (wl : Str)
    (d d' : Doc) (h : pipelineRun lookup wl d = CreateResult.stored d')
    (c : Container) (hc : c ∈ d'.containers) :
    (c.ports.map Port.name).Nodup := by
  unfold pipelineRun at h
  rcases hsp : setPorts wl d.containers with ⟨cs, eo⟩
  rw [hsp] at h
  cases eo with
  | some e => simp at h
  | none =>
    simp only [CreateResult.stored.injEq] at h
    have hcont : d'.containers = cs := by
      rw [← h, setStrategy_containers, setScheduling_containers]
    have h2 : (setPorts wl d.containers).2 = none := by rw [hsp]
    have h1 : (setPorts wl d.containers).1 = cs := by rw [hsp]
    apply setPorts_ok_nodup wl d.containers h2
    rw [h1, ← hcont]
    exact hc

/-- Claim C5 (amended): for every document on which `Create` or
`Update` succeeds, every port's name is unique within its own
container's port list.  (The `usedNames` set is reset per container,
so uniqueness does not extend across containers.) -/
theorem port_names_unique_per_container (lookup : Str → Except Unit Str)
    (d d' : Doc)
    (h : create lookup d = CreateResult.stored d' ∨
      ∃ id : Str, update lookup id d = some (CreateResult.stored d'))
    (c : Container) (hc : c ∈ d'.containers) :
    (c.ports.map Port.name).Nodup := by
  rcases h with h | ⟨id, h⟩
  · exact pipelineRun_stored_nodup lookup d.name d d' h c hc
  · unfold update at h
    rcases hid : (splitOnChar ':' id)[1]? with _ | wl
    · rw [hid] at h
      simp at h
    · rw [hid] at h
      exact pipelineRun_stored_nodup lookup wl d d' (Option.some.inj h) c hc

/-- Claim C5 counterexample: `Create` succeeds on a document whose two
containers each carry a port named `"x"`, so port names are not unique
across the whole document. -/
theorem cross_container_duplicate_allowed :
    create lookupFail twoContainerDoc = CreateResult.stored twoContainerDoc ∧
    twoContainerDoc.containers.map (fun c => c.ports.map Port.name) =
      [["x".data], ["x".data]] :=
  ⟨by decide, by decide⟩

/-- Claim C5 witness: applying the per-container uniqueness theorem to
a successful concrete `Create`. -/
theorem port_names_unique_per_container_witness :
    ((⟨[namedPort]⟩ : Container).ports.map Port.name).Nodup :=
  port_names_unique_per_container lookupFail twoContainerDoc twoContainerDoc
    (Or.inl (by decide)) ⟨[namedPort]⟩ (by decide)

theorem processPorts_append (wl : Str) :
    ∀ (ps qs : List Port) (used : List Str), (processPorts wl used ps).2 = none →
      processPorts wl used (ps ++ qs) =
        ((processPorts wl used ps).1 ++ (processPorts wl (usedAfter used ps) qs).1,
         (processPorts wl (usedAfter used ps) qs).2) := by
  intro ps
  induction ps with
  | nil =>
    intro qs used _
    simp [processPorts_nil, usedAfter]
  | cons q ps ih =>
    intro qs used h
    by_cases hq : finalName q ∈ used
    · rw [processPorts_cons_mem wl used q ps hq] at h
      simp at h
    · have h2 : (processPorts wl (finalName q :: used) ps).2 = none := by
        rw [processPorts_cons_not_mem wl used q ps hq] at h
        exact h
      have hcons : (q :: ps) ++ qs = q :: (ps ++ qs) := rfl
      rw [hcons, processPorts_cons_not_mem wl used q (ps ++ qs) hq,
        processPorts_cons_not_mem wl used q ps hq, ih qs (finalName q :: used) h2]
      rfl

/-- Claim C10: when the port namer aborts with the duplicate-name
error, the in-memory document is not restored: `setPorts` hands back,
alongside the error, a document in which every earlier container's
ports are fully processed (names and `dnsName`s rewritten), the
failing container's ports before the collision are processed, and the
colliding port and everything after it keep their input state. -/
theorem partial_mutation_on_error (wl : Str) (cs1 : List Container)
    (ports1 : List Port) (pbad : Port) (rest : List Port) (cs2 : List Container)
    (hclean : ∀ c ∈ cs1, (processPorts wl [] c.ports).2 = none)
    (h1 : (processPorts wl [] ports1).2 = none)
    (hbad : finalName pbad ∈ usedAfter [] ports1) :
    setPorts wl (cs1 ++ { ports := ports1 ++ pbad :: rest } :: cs2) =
      (cs1.map (fun c => ({ ports := (processPorts wl [] c.ports).1 } : Container)) ++
         { ports := (processPorts wl [] ports1).1 ++ pbad :: rest } :: cs2,
       some ⟨ErrorCode.invalidOption, pbad.kind, pbad.containerPort, pbad.protocol⟩) := by
  have hmid : processPorts wl [] (ports1 ++ pbad :: rest) =
      ((processPorts wl [] ports1).1 ++ pbad :: rest,
       some ⟨ErrorCode.invalidOption, pbad.kind, pbad.containerPort, pbad.protocol⟩) := by
    rw [processPorts_append wl ports1 (pbad :: rest) [] h1,
      processPorts_cons_mem wl (usedAfter [] ports1) pbad rest hbad]
  revert hclean
  induction cs1 with
  | nil =>
    intro _
    rw [List.nil_append, List.map_nil, List.nil_append]
    exact setPorts_cons_err wl { ports := ports1 ++ pbad :: rest } cs2
      ((processPorts wl [] ports1).1 ++ pbad :: rest)
      ⟨ErrorCode.invalidOption, pbad.kind, pbad.containerPort, pbad.protocol⟩ hmid
  | cons c0 cs1 ih =>
    intro hclean
    have hc0 : (processPorts wl [] c0.ports).2 = none :=
      hclean c0 (List.mem_cons_self c0 cs1)
    rcases hp : processPorts wl [] c0.ports with ⟨ps0, eo0⟩
    have heo : eo0 = none := by
      rw [hp] at hc0
      simpa using hc0
    subst heo
    have hrec := ih (fun c hc => hclean c (List.mem_cons_of_mem c0 hc))
    rw [List.cons_append, setPorts_cons_ok wl c0 _ ps0 hp, hrec]
    simp [hp]

/-- Claim C10 witness: an earlier container's empty-named port has
already been renamed to `"80tcp0"` in the document handed back with
the duplicate error raised in the second container. -/
theorem partial_mutation_on_error_witness :
    setPorts "web".data
        ([⟨[mutatedPort]⟩] ++ { ports := [namedPort] ++ collidingPort :: [] } :: []) =
      ([(⟨[mutatedPort]⟩ : Container)].map
          (fun c => ({ ports := (processPorts "web".data [] c.ports).1 } : Container)) ++
        { ports := (processPorts "web".data [] [namedPort]).1 ++ collidingPort :: [] } :: [],
       some ⟨ErrorCode.invalidOption, collidingPort.kind, collidingPort.containerPort,
         collidingPort.protocol⟩) ∧
    (processPorts "web".data [] [mutatedPort]).1.map Port.name = ["80tcp0".data] :=
  ⟨partial_mutation_on_error "web".data [⟨[mutatedPort]⟩] [namedPort] collidingPort [] []
    (by decide) (by decide) (by decide), by decide⟩

end WorkloadStore
